import Mathlib

/-!
Verification of the RocksDB-backed quad store of Oxigraph
(`src/lib/src/store/rocksdb.rs`) and of the JS bindings' term conversions
(`src/js/src/model.rs`), as a shallow embedding in Lean.

The store keeps each quad under six key permutations (spog, posg, ospg,
gspo, gpos, gosp), one RocksDB column family per permutation.  The encoded
term codec (`numeric_encoder.rs`) is not among the sources; its key
writers/readers are modelled from the spec, which states that a key is the
concatenation of four fixed-width encoded-term blocks.  Because the blocks
are fixed-width and injective, we represent one block by one abstract
`EncodedTerm` symbol, so a key is the list of the four components in the
permutation's physical order and a byte prefix of whole blocks is a list
prefix.
-/

namespace Oxigraph

/-- Modelled from the spec: an encoded RDF term (`EncodedTerm` of
`numeric_encoder.rs`, not among the sources) is a fixed-width tagged block:
the default graph is a distinguished tag with no payload, named nodes,
blank nodes and literals carry a 128-bit payload.  Each block is abstracted
to one symbol; the claims under verification never inspect the intra-block
byte layout. -/
inductive EncodedTerm where
  | defaultGraph : EncodedTerm
  | namedNode : Nat → EncodedTerm
  | blankNode : Nat → EncodedTerm
  | literal : Nat → EncodedTerm
  deriving DecidableEq

/-- `ENCODED_DEFAULT_GRAPH` of `numeric_encoder.rs`. -/
def ENCODED_DEFAULT_GRAPH : EncodedTerm := EncodedTerm.defaultGraph

/-- `EncodedQuad`: the four components always in logical
(subject, predicate, object, graph) order, whatever the key permutation. -/
@[ext] structure EncodedQuad where
  subject : EncodedTerm
  predicate : EncodedTerm
  object : EncodedTerm
  graph : EncodedTerm
  deriving DecidableEq

/-- Modelled from the spec: `write_term` of the encoded-quad codec
(`numeric_encoder.rs`, not among the sources) emits one fixed-width block
per term; a block is abstracted to one symbol. -/
def writeTerm (t : EncodedTerm) : List EncodedTerm := [t]

/-- Modelled from the spec: `write_spog_quad` writes the four fixed-width
encoded terms in subject, predicate, object, graph order. -/
def writeSpogQuad (q : EncodedQuad) : List EncodedTerm :=
  writeTerm q.subject ++ writeTerm q.predicate ++ writeTerm q.object ++ writeTerm q.graph

/-- Modelled from the spec: `write_posg_quad` (predicate, object, subject, graph). -/
def writePosgQuad (q : EncodedQuad) : List EncodedTerm :=
  writeTerm q.predicate ++ writeTerm q.object ++ writeTerm q.subject ++ writeTerm q.graph

/-- Modelled from the spec: `write_ospg_quad` (object, subject, predicate, graph). -/
def writeOspgQuad (q : EncodedQuad) : List EncodedTerm :=
  writeTerm q.object ++ writeTerm q.subject ++ writeTerm q.predicate ++ writeTerm q.graph

/-- Modelled from the spec: `write_gspo_quad` (graph, subject, predicate, object). -/
def writeGspoQuad (q : EncodedQuad) : List EncodedTerm :=
  writeTerm q.graph ++ writeTerm q.subject ++ writeTerm q.predicate ++ writeTerm q.object

/-- Modelled from the spec: `write_gpos_quad` (graph, predicate, object, subject). -/
def writeGposQuad (q : EncodedQuad) : List EncodedTerm :=
  writeTerm q.graph ++ writeTerm q.predicate ++ writeTerm q.object ++ writeTerm q.subject

/-- Modelled from the spec: `write_gosp_quad` (graph, object, subject, predicate). -/
def writeGospQuad (q : EncodedQuad) : List EncodedTerm :=
  writeTerm q.graph ++ writeTerm q.object ++ writeTerm q.subject ++ writeTerm q.predicate

/-- Modelled from the spec: `read_spog_quad` decodes a spog key back to an
`EncodedQuad` whose in-memory fields are in logical order; a key that is not
four blocks is a corruption error. -/
def readSpogQuad : List EncodedTerm → Except String EncodedQuad
  | [s, p, o, g] => Except.ok ⟨s, p, o, g⟩
  | _ => Except.error "invalid quad key"

/-- Modelled from the spec: `read_posg_quad`. -/
def readPosgQuad : List EncodedTerm → Except String EncodedQuad
  | [p, o, s, g] => Except.ok ⟨s, p, o, g⟩
  | _ => Except.error "invalid quad key"

/-- Modelled from the spec: `read_ospg_quad`. -/
def readOspgQuad : List EncodedTerm → Except String EncodedQuad
  | [o, s, p, g] => Except.ok ⟨s, p, o, g⟩
  | _ => Except.error "invalid quad key"

/-- Modelled from the spec: `read_gspo_quad`. -/
def readGspoQuad : List EncodedTerm → Except String EncodedQuad
  | [g, s, p, o] => Except.ok ⟨s, p, o, g⟩
  | _ => Except.error "invalid quad key"

/-- Modelled from the spec: `read_gpos_quad`. -/
def readGposQuad : List EncodedTerm → Except String EncodedQuad
  | [g, p, o, s] => Except.ok ⟨s, p, o, g⟩
  | _ => Except.error "invalid quad key"

/-- Modelled from the spec: `read_gosp_quad`. -/
def readGospQuad : List EncodedTerm → Except String EncodedQuad
  | [g, o, s, p] => Except.ok ⟨s, p, o, g⟩
  | _ => Except.error "invalid quad key"

/-- `key.starts_with(prefix)` of the decoding iterator: bytewise prefix
test, here at block granularity. -/
def hasPfx : List EncodedTerm → List EncodedTerm → Bool
  | [], _ => true
  | _ :: _, [] => false
  | a :: as, b :: bs => a = b && hasPfx as bs

instance {ε α : Type} [DecidableEq ε] [DecidableEq α] : DecidableEq (Except ε α) :=
  fun a b =>
    match a, b with
    | Except.error e, Except.error e' => decidable_of_iff (e = e') (by simp)
    | Except.error _, Except.ok _ => isFalse (by simp)
    | Except.ok _, Except.error _ => isFalse (by simp)
    | Except.ok v, Except.ok v' => decidable_of_iff (v = v') (by simp)

/-- The column family names (`ID2STR_CF` … `GOSP_CF`). -/
def ID2STR_CF : String := "id2str"

def SPOG_CF : String := "spog"

def POSG_CF : String := "posg"

def OSPG_CF : String := "ospg"

def GSPO_CF : String := "gspo"

def GPOS_CF : String := "gpos"

def GOSP_CF : String := "gosp"

/-- `MAX_TRANSACTION_SIZE` (rocksdb.rs line 68). -/
def MAX_TRANSACTION_SIZE : Nat := 1024

/-- The RocksDB instance: the list of column family handles that exist,
the `id2str` dictionary column family, and the six index column families,
each a set of keys (index keys have empty values: presence is membership). -/
@[ext] structure DB where
  cfs : List String
  id2str : Nat → Option String
  spog : Finset (List EncodedTerm)
  posg : Finset (List EncodedTerm)
  ospg : Finset (List EncodedTerm)
  gspo : Finset (List EncodedTerm)
  gpos : Finset (List EncodedTerm)
  gosp : Finset (List EncodedTerm)

/-- A freshly opened store: all seven column families exist and are empty. -/
def emptyDB : DB :=
  { cfs := [ID2STR_CF, SPOG_CF, POSG_CF, OSPG_CF, GSPO_CF, GPOS_CF, GOSP_CF]
    id2str := fun _ => none
    spog := ∅, posg := ∅, ospg := ∅, gspo := ∅, gpos := ∅, gosp := ∅ }

/-- `get_cf` (rocksdb.rs lines 702-705): fails when the column family
handle is missing. -/
def get_cf (db : DB) (name : String) : Except String Unit :=
  if name ∈ db.cfs then Except.ok ()
  else Except.error ("column family " ++ name ++ " not found")

/-- `RocksDbStore::handle` (lines 217-228): acquires the seven column
family handles, in declaration order, failing on the first missing one. -/
def DB.handle (db : DB) : Except String Unit := do
  get_cf db ID2STR_CF
  get_cf db SPOG_CF
  get_cf db POSG_CF
  get_cf db OSPG_CF
  get_cf db GSPO_CF
  get_cf db GPOS_CF
  get_cf db GOSP_CF

/-- `encode_term` (lines 716-720): the byte prefix for one bound term. -/
def encode_term (t : EncodedTerm) : List EncodedTerm := writeTerm t

/-- `encode_term_pair` (lines 722-727). -/
def encode_term_pair (t1 t2 : EncodedTerm) : List EncodedTerm := writeTerm t1 ++ writeTerm t2

/-- `encode_term_triple` (lines 729-735). -/
def encode_term_triple (t1 t2 t3 : EncodedTerm) : List EncodedTerm :=
  writeTerm t1 ++ writeTerm t2 ++ writeTerm t3

/-- `RocksDbStoreHandle::inner_quads` (lines 503-516): seek to the prefix
in the given column family, yield every key starting with the prefix,
decoded by the permutation's reader.  The lazy iterator is modelled by the
finite set of the items it yields. -/
def inner_quads (cf : Finset (List EncodedTerm)) (pre : List EncodedTerm)
    (decode : List EncodedTerm → Except String EncodedQuad) :
    Finset (Except String EncodedQuad) :=
  (cf.filter (fun k => hasPfx pre k = true)).image decode

/-- `spog_quads` (lines 467-471). -/
def spog_quads (db : DB) (pre : List EncodedTerm) : Finset (Except String EncodedQuad) :=
  inner_quads db.spog pre readSpogQuad

/-- `posg_quads` (lines 473-477). -/
def posg_quads (db : DB) (pre : List EncodedTerm) : Finset (Except String EncodedQuad) :=
  inner_quads db.posg pre readPosgQuad

/-- `ospg_quads` (lines 479-483). -/
def ospg_quads (db : DB) (pre : List EncodedTerm) : Finset (Except String EncodedQuad) :=
  inner_quads db.ospg pre readOspgQuad

/-- `gspo_quads` (lines 485-489). -/
def gspo_quads (db : DB) (pre : List EncodedTerm) : Finset (Except String EncodedQuad) :=
  inner_quads db.gspo pre readGspoQuad

/-- `gpos_quads` (lines 491-495). -/
def gpos_quads (db : DB) (pre : List EncodedTerm) : Finset (Except String EncodedQuad) :=
  inner_quads db.gpos pre readGposQuad

/-- `gosp_quads` (lines 497-501). -/
def gosp_quads (db : DB) (pre : List EncodedTerm) : Finset (Except String EncodedQuad) :=
  inner_quads db.gosp pre readGospQuad

/-- `RocksDbStoreHandle::contains` (lines 345-349): a point lookup of the
spog key.  RocksDB I/O is modelled as reliable, so the only `Result` value
the model produces is `Ok`. -/
def DB.contains (db : DB) (quad : EncodedQuad) : Except String Bool :=
  Except.ok (decide (writeSpogQuad quad ∈ db.spog))

/-- `quads` (lines 351-353): full scan of spog with the empty prefix. -/
def quads (db : DB) : Finset (Except String EncodedQuad) := spog_quads db []

/-- `quads_for_subject` (lines 355-360). -/
def quads_for_subject (db : DB) (s : EncodedTerm) :
    Except String (Finset (Except String EncodedQuad)) :=
  Except.ok (spog_quads db (encode_term s))

/-- `quads_for_subject_predicate` (lines 362-368). -/
def quads_for_subject_predicate (db : DB) (s p : EncodedTerm) :
    Except String (Finset (Except String EncodedQuad)) :=
  Except.ok (spog_quads db (encode_term_pair s p))

/-- `quads_for_subject_predicate_object` (lines 370-377). -/
def quads_for_subject_predicate_object (db : DB) (s p o : EncodedTerm) :
    Except String (Finset (Except String EncodedQuad)) :=
  Except.ok (spog_quads db (encode_term_triple s p o))

/-- `quads_for_subject_object` (lines 379-385): ospg, prefix object‖subject. -/
def quads_for_subject_object (db : DB) (s o : EncodedTerm) :
    Except String (Finset (Except String EncodedQuad)) :=
  Except.ok (ospg_quads db (encode_term_pair o s))

/-- `quads_for_predicate` (lines 387-392). -/
def quads_for_predicate (db : DB) (p : EncodedTerm) :
    Except String (Finset (Except String EncodedQuad)) :=
  Except.ok (posg_quads db (encode_term p))

/-- `quads_for_predicate_object` (lines 394-400). -/
def quads_for_predicate_object (db : DB) (p o : EncodedTerm) :
    Except String (Finset (Except String EncodedQuad)) :=
  Except.ok (posg_quads db (encode_term_pair p o))

/-- `quads_for_object` (lines 402-407). -/
def quads_for_object (db : DB) (o : EncodedTerm) :
    Except String (Finset (Except String EncodedQuad)) :=
  Except.ok (ospg_quads db (encode_term o))

/-- `quads_for_graph` (lines 409-414). -/
def quads_for_graph (db : DB) (g : EncodedTerm) :
    Except String (Finset (Except String EncodedQuad)) :=
  Except.ok (gspo_quads db (encode_term g))

/-- `quads_for_subject_graph` (lines 416-422). -/
def quads_for_subject_graph (db : DB) (s g : EncodedTerm) :
    Except String (Finset (Except String EncodedQuad)) :=
  Except.ok (gspo_quads db (encode_term_pair g s))

/-- `quads_for_subject_predicate_graph` (lines 424-431). -/
def quads_for_subject_predicate_graph (db : DB) (s p g : EncodedTerm) :
    Except String (Finset (Except String EncodedQuad)) :=
  Except.ok (gspo_quads db (encode_term_triple g s p))

/-- `quads_for_subject_object_graph` (lines 433-440): gosp, prefix
graph‖object‖subject. -/
def quads_for_subject_object_graph (db : DB) (s o g : EncodedTerm) :
    Except String (Finset (Except String EncodedQuad)) :=
  Except.ok (gosp_quads db (encode_term_triple g o s))

/-- `quads_for_predicate_graph` (lines 442-448). -/
def quads_for_predicate_graph (db : DB) (p g : EncodedTerm) :
    Except String (Finset (Except String EncodedQuad)) :=
  Except.ok (gpos_quads db (encode_term_pair g p))

/-- `quads_for_predicate_object_graph` (lines 450-457). -/
def quads_for_predicate_object_graph (db : DB) (p o g : EncodedTerm) :
    Except String (Finset (Except String EncodedQuad)) :=
  Except.ok (gpos_quads db (encode_term_triple g p o))

/-- `quads_for_object_graph` (lines 459-465). -/
def quads_for_object_graph (db : DB) (o g : EncodedTerm) :
    Except String (Finset (Except String EncodedQuad)) :=
  Except.ok (gosp_quads db (encode_term_pair g o))

/-- `wrap_error` (lines 707-714): an `Ok` iterator is passed through, an
`Err` while setting the scan up becomes an iterator yielding exactly that
error. -/
def wrap_error (r : Except String (Finset (Except String EncodedQuad))) :
    Finset (Except String EncodedQuad) :=
  match r with
  | Except.ok it => it
  | Except.error e => {Except.error e}

/-- `ReadableEncodedStore::encoded_quads_for_pattern` for `RocksDbStore`
(lines 241-321): acquire the handle (a failure becomes a one-error
iterator), then dispatch on which of the four slots are bound. -/
def encoded_quads_for_pattern (db : DB)
    (subject predicate object graph_name : Option EncodedTerm) :
    Finset (Except String EncodedQuad) :=
  match db.handle with
  | Except.error e => {Except.error e}
  | Except.ok _ =>
    match subject with
    | some s =>
      match predicate with
      | some p =>
        match object with
        | some o =>
          match graph_name with
          | some g =>
            let quad : EncodedQuad := ⟨s, p, o, g⟩
            match db.contains quad with
            | Except.ok true => {Except.ok quad}
            | Except.ok false => ∅
            | Except.error e => {Except.error e}
          | none => wrap_error (quads_for_subject_predicate_object db s p o)
        | none =>
          match graph_name with
          | some g => wrap_error (quads_for_subject_predicate_graph db s p g)
          | none => wrap_error (quads_for_subject_predicate db s p)
      | none =>
        match object with
        | some o =>
          match graph_name with
          | some g => wrap_error (quads_for_subject_object_graph db s o g)
          | none => wrap_error (quads_for_subject_object db s o)
        | none =>
          match graph_name with
          | some g => wrap_error (quads_for_subject_graph db s g)
          | none => wrap_error (quads_for_subject db s)
    | none =>
      match predicate with
      | some p =>
        match object with
        | some o =>
          match graph_name with
          | some g => wrap_error (quads_for_predicate_object_graph db p o g)
          | none => wrap_error (quads_for_predicate_object db p o)
        | none =>
          match graph_name with
          | some g => wrap_error (quads_for_predicate_graph db p g)
          | none => wrap_error (quads_for_predicate db p)
      | none =>
        match object with
        | some o =>
          match graph_name with
          | some g => wrap_error (quads_for_object_graph db o g)
          | none => wrap_error (quads_for_object db o)
        | none =>
          match graph_name with
          | some g => wrap_error (quads_for_graph db g)
          | none => quads db

/-- `RocksDbStore::quads_for_pattern` (lines 124-143), restricted to its
graph-slot translation: the outer option is passed through, an inner `None`
becomes `ENCODED_DEFAULT_GRAPH`, an inner graph name is encoded.  The
term-level encoding and the final `decode_quad` live in the absent
`numeric_encoder.rs`; the pattern slots here are already encoded terms. -/
def RocksDbStore.quads_for_pattern (db : DB)
    (subject predicate object : Option EncodedTerm)
    (graph_name : Option (Option EncodedTerm)) :
    Finset (Except String EncodedQuad) :=
  encoded_quads_for_pattern db subject predicate object
    (graph_name.map (fun g => g.getD ENCODED_DEFAULT_GRAPH))

/-- One of the six index column families, to address a batched write. -/
inductive IndexCf where
  | spog | posg | ospg | gspo | gpos | gosp
  deriving DecidableEq

/-- One operation buffered in a RocksDB `WriteBatch`: `put_cf` on an index
column family (empty value), `delete_cf` on an index column family, or
`put_cf` on `id2str` (the dictionary insert of lines 635-638). -/
inductive BatchOp where
  | putIndex : IndexCf → List EncodedTerm → BatchOp
  | delIndex : IndexCf → List EncodedTerm → BatchOp
  | putStr : Nat → String → BatchOp
  deriving DecidableEq

/-- Insert a key into the named index column family. -/
def putIndexKey (db : DB) (cf : IndexCf) (k : List EncodedTerm) : DB :=
  match cf with
  | IndexCf.spog => { db with spog := insert k db.spog }
  | IndexCf.posg => { db with posg := insert k db.posg }
  | IndexCf.ospg => { db with ospg := insert k db.ospg }
  | IndexCf.gspo => { db with gspo := insert k db.gspo }
  | IndexCf.gpos => { db with gpos := insert k db.gpos }
  | IndexCf.gosp => { db with gosp := insert k db.gosp }

/-- Delete a key from the named index column family (a blind delete: absent
keys are silently ignored). -/
def delIndexKey (db : DB) (cf : IndexCf) (k : List EncodedTerm) : DB :=
  match cf with
  | IndexCf.spog => { db with spog := db.spog.erase k }
  | IndexCf.posg => { db with posg := db.posg.erase k }
  | IndexCf.ospg => { db with ospg := db.ospg.erase k }
  | IndexCf.gspo => { db with gspo := db.gspo.erase k }
  | IndexCf.gpos => { db with gpos := db.gpos.erase k }
  | IndexCf.gosp => { db with gosp := db.gosp.erase k }

/-- Apply one buffered operation to the database. -/
def applyBatchOp (db : DB) : BatchOp → DB
  | BatchOp.putIndex cf k => putIndexKey db cf k
  | BatchOp.delIndex cf k => delIndexKey db cf k
  | BatchOp.putStr h v =>
    { db with id2str := fun x => if x = h then some v else db.id2str x }

/-- `DB::write`: apply a whole `WriteBatch` atomically, in buffered order. -/
def DB.write (db : DB) (batch : List BatchOp) : DB := batch.foldl applyBatchOp db

/-- `RocksDbInnerTransaction::insert` (lines 640-666): buffer one put per
permutation, in spog, posg, ospg, gspo, gpos, gosp order. -/
def innerTransactionInsert (batch : List BatchOp) (quad : EncodedQuad) : List BatchOp :=
  batch ++
    [BatchOp.putIndex IndexCf.spog (writeSpogQuad quad),
     BatchOp.putIndex IndexCf.posg (writePosgQuad quad),
     BatchOp.putIndex IndexCf.ospg (writeOspgQuad quad),
     BatchOp.putIndex IndexCf.gspo (writeGspoQuad quad),
     BatchOp.putIndex IndexCf.gpos (writeGposQuad quad),
     BatchOp.putIndex IndexCf.gosp (writeGospQuad quad)]

/-- `RocksDbInnerTransaction::remove` (lines 668-694): buffer one delete
per permutation, without any existence check. -/
def innerTransactionRemove (batch : List BatchOp) (quad : EncodedQuad) : List BatchOp :=
  batch ++
    [BatchOp.delIndex IndexCf.spog (writeSpogQuad quad),
     BatchOp.delIndex IndexCf.posg (writePosgQuad quad),
     BatchOp.delIndex IndexCf.ospg (writeOspgQuad quad),
     BatchOp.delIndex IndexCf.gspo (writeGspoQuad quad),
     BatchOp.delIndex IndexCf.gpos (writeGposQuad quad),
     BatchOp.delIndex IndexCf.gosp (writeGospQuad quad)]

/-- `RocksDbStore::transaction` (lines 157-164) with
`RocksDbInnerTransaction::commit` (lines 696-699): the closure fills a
fresh write buffer; only when it returns `Ok` is the buffer written, as one
atomic batch.  The pair returned is (the call's result, the store
afterwards). -/
def RocksDbStore.transaction (db : DB)
    (f : List BatchOp → Except String (List BatchOp)) :
    Except String Unit × DB :=
  match f [] with
  | Except.error e => (Except.error e, db)
  | Except.ok batch => (Except.ok (), db.write batch)

/-- `RocksDbAutoTransaction` (lines 592-626): the store it writes to and
its current buffer. -/
@[ext] structure RocksDbAutoTransaction where
  db : DB
  batch : List BatchOp

/-- `RocksDbAutoTransaction::commit_if_big` (lines 620-625): once the
buffer holds more than `MAX_TRANSACTION_SIZE` operations it is written as
one (non-atomic with respect to the whole load) batch and emptied. -/
def commit_if_big (t : RocksDbAutoTransaction) : RocksDbAutoTransaction :=
  if MAX_TRANSACTION_SIZE < t.batch.length then
    { db := t.db.write t.batch, batch := [] }
  else t

/-- `RocksDbAutoTransaction::insert_encoded` (lines 604-607): buffer the
whole quad first, then check the threshold. -/
def RocksDbAutoTransaction.insert_encoded (t : RocksDbAutoTransaction)
    (quad : EncodedQuad) : RocksDbAutoTransaction :=
  commit_if_big { db := t.db, batch := innerTransactionInsert t.batch quad }

/-- `RocksDbAutoTransaction::remove_encoded` (lines 609-612). -/
def RocksDbAutoTransaction.remove_encoded (t : RocksDbAutoTransaction)
    (quad : EncodedQuad) : RocksDbAutoTransaction :=
  commit_if_big { db := t.db, batch := innerTransactionRemove t.batch quad }

/-- `RocksDbAutoTransaction::commit` (lines 616-618). -/
def RocksDbAutoTransaction.commit (t : RocksDbAutoTransaction) : DB :=
  t.db.write t.batch

/-- `RocksDbStore::insert` (lines 201-207): a fresh auto-transaction, one
encoded insert, commit.  Dictionary staging by `encode_quad` concerns the
absent term encoder; at the encoded level the quad is given directly. -/
def RocksDbStore.insert (db : DB) (quad : EncodedQuad) : DB :=
  RocksDbAutoTransaction.commit
    (RocksDbAutoTransaction.insert_encoded { db := db, batch := [] } quad)

/-- `RocksDbStore::remove` (lines 209-215): a fresh auto-transaction, one
encoded remove (six blind deletes), commit. -/
def RocksDbStore.remove (db : DB) (quad : EncodedQuad) : DB :=
  RocksDbAutoTransaction.commit
    (RocksDbAutoTransaction.remove_encoded { db := db, batch := [] } quad)

/-- A store-level mutation: `RocksDbStore::insert` or `RocksDbStore::remove`. -/
inductive StoreOp where
  | ins : EncodedQuad → StoreOp
  | rem : EncodedQuad → StoreOp
  deriving DecidableEq

/-- Run one store-level mutation. -/
def applyStoreOp (db : DB) : StoreOp → DB
  | StoreOp.ins q => RocksDbStore.insert db q
  | StoreOp.rem q => RocksDbStore.remove db q

/-- Run a sequence of store-level mutations. -/
def applyStoreOps (db : DB) (ops : List StoreOp) : DB := ops.foldl applyStoreOp db

/-- The logical set of quads an operation sequence leaves in the store. -/
def quadSet (ops : List StoreOp) : Finset EncodedQuad :=
  ops.foldl
    (fun s op =>
      match op with
      | StoreOp.ins q => insert q s
      | StoreOp.rem q => s.erase q)
    ∅

/-! ### Basic facts about the key codec -/

@[simp] lemma readSpog_writeSpog (q : EncodedQuad) :
    readSpogQuad (writeSpogQuad q) = Except.ok q := rfl

@[simp] lemma readPosg_writePosg (q : EncodedQuad) :
    readPosgQuad (writePosgQuad q) = Except.ok q := rfl

@[simp] lemma readOspg_writeOspg (q : EncodedQuad) :
    readOspgQuad (writeOspgQuad q) = Except.ok q := rfl

@[simp] lemma readGspo_writeGspo (q : EncodedQuad) :
    readGspoQuad (writeGspoQuad q) = Except.ok q := rfl

@[simp] lemma readGpos_writeGpos (q : EncodedQuad) :
    readGposQuad (writeGposQuad q) = Except.ok q := rfl

@[simp] lemma readGosp_writeGosp (q : EncodedQuad) :
    readGospQuad (writeGospQuad q) = Except.ok q := rfl

lemma writeSpogQuad_injective : Function.Injective writeSpogQuad := by
  intro a b h
  simp only [writeSpogQuad, writeTerm, List.cons_append, List.nil_append,
    List.cons.injEq, and_true] at h
  obtain ⟨h1, h2, h3, h4⟩ := h
  ext <;> assumption

lemma writePosgQuad_injective : Function.Injective writePosgQuad := by
  intro a b h
  simp only [writePosgQuad, writeTerm, List.cons_append, List.nil_append,
    List.cons.injEq, and_true] at h
  obtain ⟨h1, h2, h3, h4⟩ := h
  ext <;> assumption

lemma writeOspgQuad_injective : Function.Injective writeOspgQuad := by
  intro a b h
  simp only [writeOspgQuad, writeTerm, List.cons_append, List.nil_append,
    List.cons.injEq, and_true] at h
  obtain ⟨h1, h2, h3, h4⟩ := h
  ext <;> assumption

lemma writeGspoQuad_injective : Function.Injective writeGspoQuad := by
  intro a b h
  simp only [writeGspoQuad, writeTerm, List.cons_append, List.nil_append,
    List.cons.injEq, and_true] at h
  obtain ⟨h1, h2, h3, h4⟩ := h
  ext <;> assumption

lemma writeGposQuad_injective : Function.Injective writeGposQuad := by
  intro a b h
  simp only [writeGposQuad, writeTerm, List.cons_append, List.nil_append,
    List.cons.injEq, and_true] at h
  obtain ⟨h1, h2, h3, h4⟩ := h
  ext <;> assumption

lemma writeGospQuad_injective : Function.Injective writeGospQuad := by
  intro a b h
  simp only [writeGospQuad, writeTerm, List.cons_append, List.nil_append,
    List.cons.injEq, and_true] at h
  obtain ⟨h1, h2, h3, h4⟩ := h
  ext <;> assumption

@[simp] lemma hasPfx_nil (k : List EncodedTerm) : hasPfx [] k = true := rfl

@[simp] lemma hasPfx_cons_cons (a b : EncodedTerm) (as bs : List EncodedTerm) :
    hasPfx (a :: as) (b :: bs) = (decide (a = b) && hasPfx as bs) := rfl

/-! ### Structural behaviour of store-level insert and remove -/

lemma store_insert_eq (db : DB) (q : EncodedQuad) :
    RocksDbStore.insert db q =
      { db with
        spog := insert (writeSpogQuad q) db.spog
        posg := insert (writePosgQuad q) db.posg
        ospg := insert (writeOspgQuad q) db.ospg
        gspo := insert (writeGspoQuad q) db.gspo
        gpos := insert (writeGposQuad q) db.gpos
        gosp := insert (writeGospQuad q) db.gosp } := rfl

lemma store_remove_eq (db : DB) (q : EncodedQuad) :
    RocksDbStore.remove db q =
      { db with
        spog := db.spog.erase (writeSpogQuad q)
        posg := db.posg.erase (writePosgQuad q)
        ospg := db.ospg.erase (writeOspgQuad q)
        gspo := db.gspo.erase (writeGspoQuad q)
        gpos := db.gpos.erase (writeGposQuad q)
        gosp := db.gosp.erase (writeGospQuad q) } := rfl

@[simp] lemma cfs_applyBatchOp (db : DB) (op : BatchOp) :
    (applyBatchOp db op).cfs = db.cfs := by
  cases op with
  | putIndex cf k => cases cf <;> rfl
  | delIndex cf k => cases cf <;> rfl
  | putStr h v => rfl

@[simp] lemma cfs_write (batch : List BatchOp) : ∀ db : DB, (db.write batch).cfs = db.cfs := by
  induction batch with
  | nil => intro db; rfl
  | cons op rest ih =>
    intro db
    show ((applyBatchOp db op).write rest).cfs = db.cfs
    rw [ih, cfs_applyBatchOp]

@[simp] lemma cfs_applyStoreOp (db : DB) (op : StoreOp) :
    (applyStoreOp db op).cfs = db.cfs := by
  cases op with
  | ins q => rw [applyStoreOp, store_insert_eq]
  | rem q => rw [applyStoreOp, store_remove_eq]

@[simp] lemma cfs_applyStoreOps (ops : List StoreOp) :
    ∀ db : DB, (applyStoreOps db ops).cfs = db.cfs := by
  induction ops with
  | nil => intro db; rfl
  | cons op rest ih =>
    intro db
    show (applyStoreOps (applyStoreOp db op) rest).cfs = db.cfs
    rw [ih, cfs_applyStoreOp]

lemma handle_of_cfs (db : DB) (h : db.cfs = emptyDB.cfs) : db.handle = Except.ok () := by
  unfold DB.handle get_cf
  rw [h]
  rfl

@[simp] lemma handle_applyStoreOps (ops : List StoreOp) :
    (applyStoreOps emptyDB ops).handle = Except.ok () :=
  handle_of_cfs _ (cfs_applyStoreOps ops emptyDB)

/-! ### Scan membership -/

lemma ok_mem_inner_quads {S : Finset EncodedQuad} {f : EncodedQuad → List EncodedTerm}
    {read : List EncodedTerm → Except String EncodedQuad}
    (hread : ∀ q, read (f q) = Except.ok q)
    (pre : List EncodedTerm) (q : EncodedQuad) :
    Except.ok q ∈ inner_quads (S.image f) pre read ↔
      q ∈ S ∧ hasPfx pre (f q) = true := by
  unfold inner_quads
  simp only [Finset.mem_image, Finset.mem_filter]
  constructor
  · rintro ⟨k, ⟨⟨q', hq', rfl⟩, hpfx⟩, hk⟩
    rw [hread q', Except.ok.injEq] at hk
    subst hk
    exact ⟨hq', hpfx⟩
  · rintro ⟨hq, hpfx⟩
    exact ⟨f q, ⟨⟨q, hq, rfl⟩, hpfx⟩, hread q⟩

lemma error_not_mem_inner_quads {S : Finset EncodedQuad} {f : EncodedQuad → List EncodedTerm}
    {read : List EncodedTerm → Except String EncodedQuad}
    (hread : ∀ q, read (f q) = Except.ok q)
    (pre : List EncodedTerm) (e : String) :
    Except.error e ∉ inner_quads (S.image f) pre read := by
  unfold inner_quads
  simp only [Finset.mem_image, Finset.mem_filter]
  rintro ⟨k, ⟨⟨q', hq', rfl⟩, hpfx⟩, hk⟩
  rw [hread q'] at hk
  exact absurd hk (by simp)

/-! ### The six indexes track one logical quad set -/

/-- The six index column families all hold exactly the keys of one logical
quad set. -/
def Syncs (S : Finset EncodedQuad) (db : DB) : Prop :=
  db.spog = S.image writeSpogQuad ∧ db.posg = S.image writePosgQuad ∧
  db.ospg = S.image writeOspgQuad ∧ db.gspo = S.image writeGspoQuad ∧
  db.gpos = S.image writeGposQuad ∧ db.gosp = S.image writeGospQuad

/-- One logical step of the quad set, matching one store-level mutation. -/
def stepQuadSet (S : Finset EncodedQuad) : StoreOp → Finset EncodedQuad
  | StoreOp.ins q => insert q S
  | StoreOp.rem q => S.erase q

lemma syncs_emptyDB : Syncs ∅ emptyDB := by
  refine ⟨?_, ?_, ?_, ?_, ?_, ?_⟩ <;> simp [emptyDB]

lemma syncs_applyStoreOp {S : Finset EncodedQuad} {db : DB} (h : Syncs S db)
    (op : StoreOp) : Syncs (stepQuadSet S op) (applyStoreOp db op) := by
  obtain ⟨h1, h2, h3, h4, h5, h6⟩ := h
  cases op with
  | ins q =>
    rw [applyStoreOp, store_insert_eq]
    refine ⟨?_, ?_, ?_, ?_, ?_, ?_⟩ <;>
      simp only [stepQuadSet, Finset.image_insert, h1, h2, h3, h4, h5, h6]
  | rem q =>
    rw [applyStoreOp, store_remove_eq]
    refine ⟨?_, ?_, ?_, ?_, ?_, ?_⟩ <;>
      simp only [stepQuadSet, Finset.image_erase writeSpogQuad_injective,
        Finset.image_erase writePosgQuad_injective,
        Finset.image_erase writeOspgQuad_injective,
        Finset.image_erase writeGspoQuad_injective,
        Finset.image_erase writeGposQuad_injective,
        Finset.image_erase writeGospQuad_injective, h1, h2, h3, h4, h5, h6]

lemma quadSet_eq_foldl (ops : List StoreOp) : quadSet ops = ops.foldl stepQuadSet ∅ := by
  unfold quadSet
  congr 1

lemma syncs_foldl {S : Finset EncodedQuad} {db : DB} (h : Syncs S db) :
    ∀ ops : List StoreOp, Syncs (ops.foldl stepQuadSet S) (applyStoreOps db ops) := by
  intro ops
  induction ops generalizing S db with
  | nil => exact h
  | cons op rest ih =>
    exact ih (syncs_applyStoreOp h op)

lemma syncs_applyStoreOps (ops : List StoreOp) :
    Syncs (quadSet ops) (applyStoreOps emptyDB ops) := by
  rw [quadSet_eq_foldl]
  exact syncs_foldl syncs_emptyDB ops

/-! ### Scan membership over a reachable store -/

lemma ok_mem_spog_quads (ops : List StoreOp) (pre : List EncodedTerm) (q : EncodedQuad) :
    Except.ok q ∈ spog_quads (applyStoreOps emptyDB ops) pre ↔
      q ∈ quadSet ops ∧ hasPfx pre (writeSpogQuad q) = true := by
  unfold spog_quads
  rw [(syncs_applyStoreOps ops).1]
  exact ok_mem_inner_quads readSpog_writeSpog pre q

lemma ok_mem_posg_quads (ops : List StoreOp) (pre : List EncodedTerm) (q : EncodedQuad) :
    Except.ok q ∈ posg_quads (applyStoreOps emptyDB ops) pre ↔
      q ∈ quadSet ops ∧ hasPfx pre (writePosgQuad q) = true := by
  unfold posg_quads
  rw [(syncs_applyStoreOps ops).2.1]
  exact ok_mem_inner_quads readPosg_writePosg pre q

lemma ok_mem_ospg_quads (ops : List StoreOp) (pre : List EncodedTerm) (q : EncodedQuad) :
    Except.ok q ∈ ospg_quads (applyStoreOps emptyDB ops) pre ↔
      q ∈ quadSet ops ∧ hasPfx pre (writeOspgQuad q) = true := by
  unfold ospg_quads
  rw [(syncs_applyStoreOps ops).2.2.1]
  exact ok_mem_inner_quads readOspg_writeOspg pre q

lemma ok_mem_gspo_quads (ops : List StoreOp) (pre : List EncodedTerm) (q : EncodedQuad) :
    Except.ok q ∈ gspo_quads (applyStoreOps emptyDB ops) pre ↔
      q ∈ quadSet ops ∧ hasPfx pre (writeGspoQuad q) = true := by
  unfold gspo_quads
  rw [(syncs_applyStoreOps ops).2.2.2.1]
  exact ok_mem_inner_quads readGspo_writeGspo pre q

lemma ok_mem_gpos_quads (ops : List StoreOp) (pre : List EncodedTerm) (q : EncodedQuad) :
    Except.ok q ∈ gpos_quads (applyStoreOps emptyDB ops) pre ↔
      q ∈ quadSet ops ∧ hasPfx pre (writeGposQuad q) = true := by
  unfold gpos_quads
  rw [(syncs_applyStoreOps ops).2.2.2.2.1]
  exact ok_mem_inner_quads readGpos_writeGpos pre q

lemma ok_mem_gosp_quads (ops : List StoreOp) (pre : List EncodedTerm) (q : EncodedQuad) :
    Except.ok q ∈ gosp_quads (applyStoreOps emptyDB ops) pre ↔
      q ∈ quadSet ops ∧ hasPfx pre (writeGospQuad q) = true := by
  unfold gosp_quads
  rw [(syncs_applyStoreOps ops).2.2.2.2.2]
  exact ok_mem_inner_quads readGosp_writeGosp pre q

/-! ### Auto-transaction bookkeeping -/

/-- One bulk-load step on an auto-transaction. -/
def autoStep (t : RocksDbAutoTransaction) : StoreOp → RocksDbAutoTransaction
  | StoreOp.ins q => t.insert_encoded q
  | StoreOp.rem q => t.remove_encoded q

/-- The six buffered operations one store-level mutation contributes. -/
def opGroup : StoreOp → List BatchOp
  | StoreOp.ins q => innerTransactionInsert [] q
  | StoreOp.rem q => innerTransactionRemove [] q

/-- The buffer contents of a whole sequence of mutations. -/
def joinGroups (qs : List StoreOp) : List BatchOp := (qs.map opGroup).flatten

lemma write_append (db : DB) (b1 b2 : List BatchOp) :
    db.write (b1 ++ b2) = (db.write b1).write b2 := by
  unfold DB.write
  rw [List.foldl_append]

@[simp] lemma write_nil (db : DB) : db.write [] = db := rfl

lemma joinGroups_append (a b : List StoreOp) :
    joinGroups (a ++ b) = joinGroups a ++ joinGroups b := by
  unfold joinGroups
  rw [List.map_append, List.flatten_append]

@[simp] lemma joinGroups_nil : joinGroups [] = [] := rfl

lemma joinGroups_singleton (op : StoreOp) : joinGroups [op] = opGroup op := by
  unfold joinGroups
  simp

lemma applyStoreOp_eq_write (db : DB) (op : StoreOp) :
    applyStoreOp db op = db.write (opGroup op) := by
  cases op <;> rfl

lemma applyStoreOps_eq_write (qs : List StoreOp) : ∀ db : DB,
    applyStoreOps db qs = db.write (joinGroups qs) := by
  induction qs with
  | nil => intro db; rfl
  | cons op rest ih =>
    intro db
    show applyStoreOps (applyStoreOp db op) rest = _
    rw [ih, applyStoreOp_eq_write,
      show joinGroups (op :: rest) = opGroup op ++ joinGroups rest from rfl,
      write_append]

lemma applyStoreOps_append (db : DB) (a b : List StoreOp) :
    applyStoreOps db (a ++ b) = applyStoreOps (applyStoreOps db a) b := by
  unfold applyStoreOps
  rw [List.foldl_append]

/-- Committing after a step is the same as stepping the committed store:
flushing inside `commit_if_big` never changes the store a final commit
produces, it only publishes a prefix of whole per-quad groups early. -/
lemma commit_autoStep (t : RocksDbAutoTransaction) (op : StoreOp) :
    (autoStep t op).commit = RocksDbAutoTransaction.commit
      { db := t.db, batch := t.batch ++ opGroup op } := by
  have key : ∀ b : List BatchOp,
      RocksDbAutoTransaction.commit (commit_if_big { db := t.db, batch := b }) =
        RocksDbAutoTransaction.commit { db := t.db, batch := b } := by
    intro b
    unfold commit_if_big
    by_cases hlen : MAX_TRANSACTION_SIZE < b.length
    · simp only [hlen, if_true]
      unfold RocksDbAutoTransaction.commit
      rw [write_nil]
    · simp only [hlen, if_false]
  cases op with
  | ins q => exact key _
  | rem q => exact key _

/-- A buffer made of whole per-quad groups only. -/
def GroupBatch (b : List BatchOp) : Prop := ∃ qs : List StoreOp, b = joinGroups qs

/-- A store state obtainable from a fresh store by store-level mutations. -/
def ReachEmpty (db : DB) : Prop := ∃ ops : List StoreOp, db = applyStoreOps emptyDB ops

lemma reachEmpty_write_groups {db : DB} (h : ReachEmpty db) (qs : List StoreOp) :
    ReachEmpty (db.write (joinGroups qs)) := by
  obtain ⟨l, rfl⟩ := h
  exact ⟨l ++ qs, by rw [applyStoreOps_append, applyStoreOps_eq_write qs]⟩

lemma autoStep_invariant {t : RocksDbAutoTransaction}
    (hdb : ReachEmpty t.db) (hb : GroupBatch t.batch) (op : StoreOp) :
    ReachEmpty (autoStep t op).db ∧ GroupBatch (autoStep t op).batch := by
  obtain ⟨qs, hqs⟩ := hb
  have hstep : ∀ g : List BatchOp, g = opGroup op →
      autoStep t op = commit_if_big { db := t.db, batch := t.batch ++ g } := by
    intro g hg
    cases op with
    | ins q => rw [hg]; rfl
    | rem q => rw [hg]; rfl
  rw [hstep (opGroup op) rfl]
  have hjoin : t.batch ++ opGroup op = joinGroups (qs ++ [op]) := by
    rw [joinGroups_append, hqs, joinGroups_singleton]
  unfold commit_if_big
  by_cases hlen : MAX_TRANSACTION_SIZE < (t.batch ++ opGroup op).length
  · simp only [hlen, if_true]
    exact ⟨by rw [hjoin]; exact reachEmpty_write_groups hdb _, ⟨[], rfl⟩⟩
  · simp only [hlen, if_false]
    exact ⟨hdb, ⟨qs ++ [op], hjoin⟩⟩

lemma autoSteps_invariant (ops : List StoreOp) : ∀ t : RocksDbAutoTransaction,
    ReachEmpty t.db → GroupBatch t.batch →
    ReachEmpty (ops.foldl autoStep t).db ∧ GroupBatch (ops.foldl autoStep t).batch := by
  induction ops with
  | nil => intro t h1 h2; exact ⟨h1, h2⟩
  | cons op rest ih =>
    intro t h1 h2
    have := autoStep_invariant h1 h2 op
    exact ih (autoStep t op) this.1 this.2

/-! ### Index coherence -/

/-- Index coherence: whichever column family one asks, each quad is either
present in all six or absent from all six. -/
def Coherent (db : DB) : Prop :=
  ∀ q : EncodedQuad,
    (writeSpogQuad q ∈ db.spog ↔ writePosgQuad q ∈ db.posg) ∧
    (writeSpogQuad q ∈ db.spog ↔ writeOspgQuad q ∈ db.ospg) ∧
    (writeSpogQuad q ∈ db.spog ↔ writeGspoQuad q ∈ db.gspo) ∧
    (writeSpogQuad q ∈ db.spog ↔ writeGposQuad q ∈ db.gpos) ∧
    (writeSpogQuad q ∈ db.spog ↔ writeGospQuad q ∈ db.gosp)

lemma syncs_mem_spog {S : Finset EncodedQuad} {db : DB} (h : Syncs S db)
    (q : EncodedQuad) : writeSpogQuad q ∈ db.spog ↔ q ∈ S := by
  rw [h.1]
  exact writeSpogQuad_injective.mem_finset_image

lemma syncs_coherent {S : Finset EncodedQuad} {db : DB} (h : Syncs S db) :
    Coherent db := by
  intro q
  obtain ⟨h1, h2, h3, h4, h5, h6⟩ := h
  rw [h1, h2, h3, h4, h5, h6]
  rw [writeSpogQuad_injective.mem_finset_image, writePosgQuad_injective.mem_finset_image,
    writeOspgQuad_injective.mem_finset_image, writeGspoQuad_injective.mem_finset_image,
    writeGposQuad_injective.mem_finset_image, writeGospQuad_injective.mem_finset_image]
  exact ⟨Iff.rfl, Iff.rfl, Iff.rfl, Iff.rfl, Iff.rfl⟩

lemma reachEmpty_coherent {db : DB} (h : ReachEmpty db) : Coherent db := by
  obtain ⟨ops, rfl⟩ := h
  exact syncs_coherent (syncs_applyStoreOps ops)

/-! ### SPARQL SERVICE handling (spec-modelled) -/

/-- One SPARQL solution: for each projected variable, its binding if any.
The empty solution binds nothing. -/
abbrev Binding := List (Option String)

/-- Modelled from the spec: the SPARQL evaluator's treatment of a `SERVICE`
call's handler result (the evaluator is not among the sources; only its
tests are, in `src/lib/tests/service_test_cases.rs`).  §4.8: a `SILENT`
service call whose handler errors is converted upstream into a single empty
solution; a non-silent failure propagates to the result iterator. -/
def evalService (silent : Bool) (handlerResult : Except String (List Binding)) :
    Except String (List Binding) :=
  if silent then
    match handlerResult with
    | Except.error _ => Except.ok [[]]
    | Except.ok solutions => Except.ok solutions
  else handlerResult

/-! ### JS DataFactory blank-node conversion (`src/js/src/model.rs`) -/

/-- `char::to_digit(16)` of the Rust standard library, for the characters a
hexadecimal `u128` may contain. -/
def hexDigitVal (c : Char) : Option Nat :=
  if '0' ≤ c ∧ c ≤ '9' then some (c.toNat - '0'.toNat)
  else if 'a' ≤ c ∧ c ≤ 'f' then some (c.toNat - 'a'.toNat + 10)
  else if 'A' ≤ c ∧ c ≤ 'F' then some (c.toNat - 'A'.toNat + 10)
  else none

/-- `2^128`, the number of `u128` values. -/
def U128_MOD : Nat := 2 ^ 128

/-- The digit loop of `u128::from_str_radix` at radix 16: left to right,
multiply-and-add, failing on a non-digit or when a step leaves the `u128`
range (`checked_mul`/`checked_add`). -/
def parseHexDigits : List Char → Nat → Option Nat
  | [], acc => some acc
  | c :: cs, acc =>
    match hexDigitVal c with
    | none => none
    | some d =>
      if 16 * acc + d < U128_MOD then parseHexDigits cs (16 * acc + d)
      else none

/-- Modelled from the Rust standard library: `u128::from_str_radix(s, 16)`.
An empty string fails; a leading `'+'` is stripped (for an unsigned type a
leading `'-'` is not a sign, and fails as a non-digit); at least one digit
must remain; then the checked digit loop runs. -/
def fromStrRadix16 (s : String) : Option Nat :=
  match s.data with
  | [] => none
  | c :: cs =>
    let ds := if c = '+' then cs else c :: cs
    if ds.isEmpty then none
    else parseHexDigits ds 0

/-- `JsDataFactory::blank_node` (model.rs lines 23-33): an explicit
identifier string must parse as a hexadecimal `u128`
(`BlankNode::new_from_unique_id`), otherwise the documented error; without
an identifier a fresh unique id is generated (the `fresh` argument stands
for `BlankNode::default()`'s random id).  A blank node is represented by
its 128-bit id. -/
def JsDataFactory.blank_node (value : Option String) (fresh : Nat) :
    Except String Nat :=
  match value with
  | some v =>
    match fromStrRadix16 v with
    | some id => Except.ok id
    | none =>
      Except.error "Oxigraph only supports BlankNode created with Oxigraph DataFactory"
  | none => Except.ok fresh

/-- The `termType = "BlankNode"` arm of `FromJsConverter::to_term`
(model.rs lines 525-538), given the host object's `value` string: the same
hexadecimal `u128` parse, the same error. -/
def FromJsConverter.to_term_blank_node (value : String) : Except String Nat :=
  match fromStrRadix16 value with
  | some id => Except.ok id
  | none =>
    Except.error "Oxigraph only supports BlankNode created with Oxigraph DataFactory"

/-- The unchecked value of a hexadecimal digit string. -/
def hexVal (ds : List Char) : Nat :=
  ds.foldl (fun a c => 16 * a + (hexDigitVal c).getD 0) 0

/-- The spec's notion of "parses as a hexadecimal 128-bit number": after
stripping an optional leading `'+'`, a non-empty string of hexadecimal
digits whose value fits in 128 bits. -/
def IsHex128 (s : String) : Prop :=
  ∃ ds : List Char,
    (s.data = ds ∨ s.data = '+' :: ds) ∧ ds ≠ [] ∧
    (∀ c ∈ ds, (hexDigitVal c).isSome = true) ∧ hexVal ds < U128_MOD

/-! ### Correctness of the hexadecimal parse -/

lemma le_hexFold : ∀ (ds : List Char) (acc : Nat),
    acc ≤ ds.foldl (fun a c => 16 * a + (hexDigitVal c).getD 0) acc := by
  intro ds
  induction ds with
  | nil => intro acc; exact Nat.le_refl acc
  | cons c cs ih =>
    intro acc
    have h1 : acc ≤ 16 * acc + (hexDigitVal c).getD 0 :=
      Nat.le_trans (Nat.le_mul_of_pos_left acc (by norm_num)) (Nat.le_add_right _ _)
    exact Nat.le_trans h1 (ih (16 * acc + (hexDigitVal c).getD 0))

lemma parseHexDigits_eq_some : ∀ (ds : List Char) (acc : Nat), acc < U128_MOD →
    ∀ n : Nat,
      (parseHexDigits ds acc = some n ↔
        ((∀ c ∈ ds, (hexDigitVal c).isSome = true) ∧
          ds.foldl (fun a c => 16 * a + (hexDigitVal c).getD 0) acc < U128_MOD ∧
          n = ds.foldl (fun a c => 16 * a + (hexDigitVal c).getD 0) acc)) := by
  intro ds
  induction ds with
  | nil =>
    intro acc hacc n
    simp only [parseHexDigits, List.foldl_nil, List.not_mem_nil, false_implies,
      implies_true, true_and, Option.some.injEq]
    constructor
    · intro h; exact ⟨hacc, h.symm⟩
    · intro h; exact h.2.symm
  | cons c cs ih =>
    intro acc hacc n
    simp only [parseHexDigits, List.foldl_cons, List.mem_cons]
    cases hd : hexDigitVal c with
    | none =>
      simp only [Option.isSome_none]
      constructor
      · intro h; cases h
      · rintro ⟨hall, -, -⟩
        have := hall c (Or.inl rfl)
        rw [hd] at this
        cases this
    | some d =>
      simp only [Option.getD_some, Option.isSome_some]
      by_cases hlt : 16 * acc + d < U128_MOD
      · rw [if_pos hlt, ih (16 * acc + d) hlt n]
        constructor
        · rintro ⟨hall, hbound, hn⟩
          exact ⟨fun x hx => by
            rcases hx with rfl | hx
            · rw [hd]; rfl
            · exact hall x hx, hbound, hn⟩
        · rintro ⟨hall, hbound, hn⟩
          exact ⟨fun x hx => hall x (Or.inr hx), hbound, hn⟩
      · rw [if_neg hlt]
        constructor
        · intro h; cases h
        · rintro ⟨-, hbound, -⟩
          exact absurd (Nat.lt_of_le_of_lt (le_hexFold cs (16 * acc + d)) hbound) hlt

lemma hexDigitVal_plus : hexDigitVal '+' = none := by decide

lemma zero_lt_u128_mod : 0 < U128_MOD := by
  unfold U128_MOD
  positivity

lemma fromStrRadix16_eq_some (s : String) (n : Nat) :
    fromStrRadix16 s = some n ↔
      ∃ ds : List Char,
        (s.data = ds ∨ s.data = '+' :: ds) ∧ ds ≠ [] ∧
        (∀ c ∈ ds, (hexDigitVal c).isSome = true) ∧
        hexVal ds < U128_MOD ∧ n = hexVal ds := by
  unfold fromStrRadix16 hexVal
  cases hs : s.data with
  | nil =>
    show (none : Option Nat) = some n ↔ _
    constructor
    · intro h; cases h
    · rintro ⟨ds, hds | hds, hne, -, -⟩
      · exact absurd hds.symm hne
      · cases hds
  | cons c cs =>
    by_cases hc : c = '+'
    · subst hc
      cases cs with
      | nil =>
        show (none : Option Nat) = some n ↔ _
        constructor
        · intro h; cases h
        · rintro ⟨ds, hds | hds, hne, hall, -, -⟩
          · subst hds
            have := hall '+' (List.mem_singleton.mpr rfl)
            rw [hexDigitVal_plus] at this
            cases this
          · rw [List.cons.injEq] at hds
            exact absurd hds.2.symm hne
      | cons d cs' =>
        show parseHexDigits (d :: cs') 0 = some n ↔ _
        rw [parseHexDigits_eq_some (d :: cs') 0 zero_lt_u128_mod n]
        constructor
        · rintro ⟨hall, hbound, hn⟩
          exact ⟨d :: cs', Or.inr rfl, by simp, hall, hbound, hn⟩
        · rintro ⟨ds, hds | hds, hne, hall, hbound, hn⟩
          · subst hds
            have := hall '+' (List.mem_cons_self _ _)
            rw [hexDigitVal_plus] at this
            cases this
          · rw [List.cons.injEq] at hds
            cases hds.2
            exact ⟨hall, hbound, hn⟩
    · show (if (if c = '+' then cs else c :: cs).isEmpty = true then none
          else parseHexDigits (if c = '+' then cs else c :: cs) 0) = some n ↔ _
      rw [if_neg hc]
      show parseHexDigits (c :: cs) 0 = some n ↔ _
      rw [parseHexDigits_eq_some (c :: cs) 0 zero_lt_u128_mod n]
      constructor
      · rintro ⟨hall, hbound, hn⟩
        exact ⟨c :: cs, Or.inl rfl, by simp, hall, hbound, hn⟩
      · rintro ⟨ds, hds | hds, hne, hall, hbound, hn⟩
        · cases hds
          exact ⟨hall, hbound, hn⟩
        · rw [List.cons.injEq] at hds
          exact absurd hds.1 hc

lemma fromStrRadix16_isSome_iff (s : String) :
    (∃ n, fromStrRadix16 s = some n) ↔ IsHex128 s := by
  unfold IsHex128
  constructor
  · rintro ⟨n, hn⟩
    rw [fromStrRadix16_eq_some] at hn
    obtain ⟨ds, h1, h2, h3, h4, -⟩ := hn
    exact ⟨ds, h1, h2, h3, h4⟩
  · rintro ⟨ds, h1, h2, h3, h4⟩
    exact ⟨hexVal ds, (fromStrRadix16_eq_some s (hexVal ds)).mpr
      ⟨ds, h1, h2, h3, h4, rfl⟩⟩

lemma fromStrRadix16_lt (s : String) (n : Nat) (h : fromStrRadix16 s = some n) :
    n < U128_MOD := by
  rw [fromStrRadix16_eq_some] at h
  obtain ⟨ds, -, -, -, hbound, rfl⟩ := h
  exact hbound

/-! ### Dispatch helpers -/

lemma handle_congr {db1 db2 : DB} (h : db1.cfs = db2.cfs) : db1.handle = db2.handle := by
  unfold DB.handle get_cf
  rw [h]

lemma eqfp_point {db : DB} (h : db.handle = Except.ok ()) (s p o g : EncodedTerm) :
    encoded_quads_for_pattern db (some s) (some p) (some o) (some g) =
      (if writeSpogQuad ⟨s, p, o, g⟩ ∈ db.spog
        then {Except.ok (⟨s, p, o, g⟩ : EncodedQuad)} else ∅) := by
  by_cases hmem : writeSpogQuad ⟨s, p, o, g⟩ ∈ db.spog
  · simp [encoded_quads_for_pattern, h, DB.contains, hmem]
  · simp [encoded_quads_for_pattern, h, DB.contains, hmem]

lemma eqfp_handle_error {db : DB} {e : String} (h : db.handle = Except.error e)
    (s p o g : Option EncodedTerm) :
    encoded_quads_for_pattern db s p o g = {Except.error e} := by
  unfold encoded_quads_for_pattern
  rw [h]

lemma eqfp_point_spog_only {db1 db2 : DB} (hcfs : db1.cfs = db2.cfs)
    (hspog : db1.spog = db2.spog) (s p o g : EncodedTerm) :
    encoded_quads_for_pattern db1 (some s) (some p) (some o) (some g) =
      encoded_quads_for_pattern db2 (some s) (some p) (some o) (some g) := by
  cases h2 : db2.handle with
  | error e =>
    rw [eqfp_handle_error (by rw [handle_congr hcfs]; exact h2) (some s) (some p) (some o)
        (some g),
      eqfp_handle_error h2 (some s) (some p) (some o) (some g)]
  | ok u =>
    cases u
    rw [eqfp_point (by rw [handle_congr hcfs]; exact h2) s p o g, eqfp_point h2 s p o g,
      hspog]

/-! ### Auto-transaction commit and buffer bounds -/

lemma commit_autoStep_write (t : RocksDbAutoTransaction) (op : StoreOp) :
    (autoStep t op).commit = (t.commit).write (opGroup op) := by
  rw [commit_autoStep]
  unfold RocksDbAutoTransaction.commit
  rw [write_append]

lemma commit_foldl_autoStep (ops : List StoreOp) : ∀ t : RocksDbAutoTransaction,
    (ops.foldl autoStep t).commit = (t.commit).write (joinGroups ops) := by
  induction ops with
  | nil => intro t; rw [List.foldl_nil, joinGroups_nil, write_nil]
  | cons op rest ih =>
    intro t
    rw [List.foldl_cons, ih (autoStep t op), commit_autoStep_write,
      show joinGroups (op :: rest) = opGroup op ++ joinGroups rest from rfl,
      write_append]

lemma autoStep_batch_le (t : RocksDbAutoTransaction) (op : StoreOp) :
    (autoStep t op).batch.length ≤ MAX_TRANSACTION_SIZE := by
  have key : ∀ b : List BatchOp,
      (commit_if_big { db := t.db, batch := b }).batch.length ≤ MAX_TRANSACTION_SIZE := by
    intro b
    unfold commit_if_big
    by_cases hlen : MAX_TRANSACTION_SIZE < b.length
    · simp only [hlen, if_true]
      exact Nat.zero_le _
    · simp only [hlen, if_false]
      exact Nat.le_of_not_lt hlen
  cases op with
  | ins q => exact key _
  | rem q => exact key _

lemma foldl_autoStep_batch_le (ops : List StoreOp) : ∀ t : RocksDbAutoTransaction,
    t.batch.length ≤ MAX_TRANSACTION_SIZE →
    (ops.foldl autoStep t).batch.length ≤ MAX_TRANSACTION_SIZE := by
  induction ops with
  | nil => intro t h; exact h
  | cons op rest ih =>
    intro t h
    exact ih (autoStep t op) (autoStep_batch_le t op)

/-! ## The claims -/

/-- C1: For every quad pattern, `encoded_quads_for_pattern` selects the
index and byte prefix given by the dispatch table (one conjunct per table
row, in table order); in particular the bound-slot set {s,o} scans the ospg
column family with prefix object‖subject and {g,s,o} scans the gosp column
family with prefix graph‖object‖subject, and every quad those scans yield
is decoded back to logical (subject, predicate, object, graph) order: the
yielded `EncodedQuad` carries the pattern's subject in its subject field
and its object in its object field. -/
theorem claim_C1 (ops : List StoreOp) (s p o g : EncodedTerm) (q : EncodedQuad) :
    (encoded_quads_for_pattern (applyStoreOps emptyDB ops) none none none none =
      spog_quads (applyStoreOps emptyDB ops) []) ∧
    (encoded_quads_for_pattern (applyStoreOps emptyDB ops) (some s) none none none =
      spog_quads (applyStoreOps emptyDB ops) (encode_term s)) ∧
    (encoded_quads_for_pattern (applyStoreOps emptyDB ops) (some s) (some p) none none =
      spog_quads (applyStoreOps emptyDB ops) (encode_term_pair s p)) ∧
    (encoded_quads_for_pattern (applyStoreOps emptyDB ops) (some s) (some p) (some o) none =
      spog_quads (applyStoreOps emptyDB ops) (encode_term_triple s p o)) ∧
    (encoded_quads_for_pattern (applyStoreOps emptyDB ops) (some s) (some p) (some o) (some g) =
      (if writeSpogQuad ⟨s, p, o, g⟩ ∈ (applyStoreOps emptyDB ops).spog
        then {Except.ok (⟨s, p, o, g⟩ : EncodedQuad)} else ∅)) ∧
    (encoded_quads_for_pattern (applyStoreOps emptyDB ops) none (some p) none none =
      posg_quads (applyStoreOps emptyDB ops) (encode_term p)) ∧
    (encoded_quads_for_pattern (applyStoreOps emptyDB ops) none (some p) (some o) none =
      posg_quads (applyStoreOps emptyDB ops) (encode_term_pair p o)) ∧
    (encoded_quads_for_pattern (applyStoreOps emptyDB ops) none none (some o) none =
      ospg_quads (applyStoreOps emptyDB ops) (encode_term o)) ∧
    (encoded_quads_for_pattern (applyStoreOps emptyDB ops) (some s) none (some o) none =
      ospg_quads (applyStoreOps emptyDB ops) (encode_term_pair o s)) ∧
    (encoded_quads_for_pattern (applyStoreOps emptyDB ops) none none none (some g) =
      gspo_quads (applyStoreOps emptyDB ops) (encode_term g)) ∧
    (encoded_quads_for_pattern (applyStoreOps emptyDB ops) (some s) none none (some g) =
      gspo_quads (applyStoreOps emptyDB ops) (encode_term_pair g s)) ∧
    (encoded_quads_for_pattern (applyStoreOps emptyDB ops) (some s) (some p) none (some g) =
      gspo_quads (applyStoreOps emptyDB ops) (encode_term_triple g s p)) ∧
    (encoded_quads_for_pattern (applyStoreOps emptyDB ops) none (some p) none (some g) =
      gpos_quads (applyStoreOps emptyDB ops) (encode_term_pair g p)) ∧
    (encoded_quads_for_pattern (applyStoreOps emptyDB ops) none (some p) (some o) (some g) =
      gpos_quads (applyStoreOps emptyDB ops) (encode_term_triple g p o)) ∧
    (encoded_quads_for_pattern (applyStoreOps emptyDB ops) none none (some o) (some g) =
      gosp_quads (applyStoreOps emptyDB ops) (encode_term_pair g o)) ∧
    (encoded_quads_for_pattern (applyStoreOps emptyDB ops) (some s) none (some o) (some g) =
      gosp_quads (applyStoreOps emptyDB ops) (encode_term_triple g o s)) ∧
    ((Except.ok q ∈ encoded_quads_for_pattern (applyStoreOps emptyDB ops)
        (some s) none (some o) none) ↔
      q ∈ quadSet ops ∧ q.subject = s ∧ q.object = o) ∧
    ((Except.ok q ∈ encoded_quads_for_pattern (applyStoreOps emptyDB ops)
        (some s) none (some o) (some g)) ↔
      q ∈ quadSet ops ∧ q.subject = s ∧ q.object = o ∧ q.graph = g) := by
  refine ⟨?_, ?_, ?_, ?_, ?_, ?_, ?_, ?_, ?_, ?_, ?_, ?_, ?_, ?_, ?_, ?_, ?_, ?_⟩
  · simp only [encoded_quads_for_pattern, handle_applyStoreOps, quads]
  · simp only [encoded_quads_for_pattern, handle_applyStoreOps, quads_for_subject, wrap_error]
  · simp only [encoded_quads_for_pattern, handle_applyStoreOps, quads_for_subject_predicate,
      wrap_error]
  · simp only [encoded_quads_for_pattern, handle_applyStoreOps,
      quads_for_subject_predicate_object, wrap_error]
  · exact eqfp_point (handle_applyStoreOps ops) s p o g
  · simp only [encoded_quads_for_pattern, handle_applyStoreOps, quads_for_predicate,
      wrap_error]
  · simp only [encoded_quads_for_pattern, handle_applyStoreOps, quads_for_predicate_object,
      wrap_error]
  · simp only [encoded_quads_for_pattern, handle_applyStoreOps, quads_for_object, wrap_error]
  · simp only [encoded_quads_for_pattern, handle_applyStoreOps, quads_for_subject_object,
      wrap_error]
  · simp only [encoded_quads_for_pattern, handle_applyStoreOps, quads_for_graph, wrap_error]
  · simp only [encoded_quads_for_pattern, handle_applyStoreOps, quads_for_subject_graph,
      wrap_error]
  · simp only [encoded_quads_for_pattern, handle_applyStoreOps,
      quads_for_subject_predicate_graph, wrap_error]
  · simp only [encoded_quads_for_pattern, handle_applyStoreOps, quads_for_predicate_graph,
      wrap_error]
  · simp only [encoded_quads_for_pattern, handle_applyStoreOps,
      quads_for_predicate_object_graph, wrap_error]
  · simp only [encoded_quads_for_pattern, handle_applyStoreOps, quads_for_object_graph,
      wrap_error]
  · simp only [encoded_quads_for_pattern, handle_applyStoreOps,
      quads_for_subject_object_graph, wrap_error]
  · rw [show encoded_quads_for_pattern (applyStoreOps emptyDB ops)
        (some s) none (some o) none =
        ospg_quads (applyStoreOps emptyDB ops) (encode_term_pair o s) from by
      simp only [encoded_quads_for_pattern, handle_applyStoreOps, quads_for_subject_object,
        wrap_error]]
    rw [ok_mem_ospg_quads]
    simp only [encode_term_pair, writeTerm, writeOspgQuad, List.cons_append,
      List.nil_append, hasPfx_cons_cons, hasPfx_nil, Bool.and_eq_true, decide_eq_true_eq,
      and_true]
    constructor
    · rintro ⟨h1, h2, h3⟩; exact ⟨h1, h3.symm, h2.symm⟩
    · rintro ⟨h1, h2, h3⟩; exact ⟨h1, h3.symm, h2.symm⟩
  · rw [show encoded_quads_for_pattern (applyStoreOps emptyDB ops)
        (some s) none (some o) (some g) =
        gosp_quads (applyStoreOps emptyDB ops) (encode_term_triple g o s) from by
      simp only [encoded_quads_for_pattern, handle_applyStoreOps,
        quads_for_subject_object_graph, wrap_error]]
    rw [ok_mem_gosp_quads]
    simp only [encode_term_triple, writeTerm, writeGospQuad, List.cons_append,
      List.nil_append, hasPfx_cons_cons, hasPfx_nil, Bool.and_eq_true, decide_eq_true_eq,
      and_true]
    constructor
    · rintro ⟨h1, h2, h3, h4⟩; exact ⟨h1, h4.symm, h3.symm, h2.symm⟩
    · rintro ⟨h1, h2, h3, h4⟩; exact ⟨h1, h4.symm, h3.symm, h2.symm⟩

/-- C2: After any sequence of insert and remove operations, a quad is a
member of the store (the `contains` point check answers `Ok(true)`) iff its
encoded key appears in all six index column families; moreover every insert
puts exactly one key into each of spog, posg, ospg, gspo, gpos and gosp,
and every remove deletes exactly the corresponding key from all six. -/
theorem claim_C2 (ops : List StoreOp) (q : EncodedQuad) (db' : DB) (q' : EncodedQuad) :
    (DB.contains (applyStoreOps emptyDB ops) q = Except.ok true ↔
      (writeSpogQuad q ∈ (applyStoreOps emptyDB ops).spog ∧
       writePosgQuad q ∈ (applyStoreOps emptyDB ops).posg ∧
       writeOspgQuad q ∈ (applyStoreOps emptyDB ops).ospg ∧
       writeGspoQuad q ∈ (applyStoreOps emptyDB ops).gspo ∧
       writeGposQuad q ∈ (applyStoreOps emptyDB ops).gpos ∧
       writeGospQuad q ∈ (applyStoreOps emptyDB ops).gosp)) ∧
    (RocksDbStore.insert db' q' =
      { db' with
        spog := insert (writeSpogQuad q') db'.spog
        posg := insert (writePosgQuad q') db'.posg
        ospg := insert (writeOspgQuad q') db'.ospg
        gspo := insert (writeGspoQuad q') db'.gspo
        gpos := insert (writeGposQuad q') db'.gpos
        gosp := insert (writeGospQuad q') db'.gosp }) ∧
    (RocksDbStore.remove db' q' =
      { db' with
        spog := db'.spog.erase (writeSpogQuad q')
        posg := db'.posg.erase (writePosgQuad q')
        ospg := db'.ospg.erase (writeOspgQuad q')
        gspo := db'.gspo.erase (writeGspoQuad q')
        gpos := db'.gpos.erase (writeGposQuad q')
        gosp := db'.gosp.erase (writeGospQuad q') }) := by
  refine ⟨?_, store_insert_eq db' q', store_remove_eq db' q'⟩
  obtain ⟨h1, h2, h3, h4, h5, h6⟩ := syncs_applyStoreOps ops
  simp only [DB.contains, Except.ok.injEq, decide_eq_true_eq]
  rw [h1, h2, h3, h4, h5, h6, writeSpogQuad_injective.mem_finset_image,
    writePosgQuad_injective.mem_finset_image, writeOspgQuad_injective.mem_finset_image,
    writeGspoQuad_injective.mem_finset_image, writeGposQuad_injective.mem_finset_image,
    writeGospQuad_injective.mem_finset_image]
  tauto

/-- C3: for every closure passed to `RocksDbStore::transaction`, if the
closure returns an error then nothing is persisted: the call returns that
error with the store unchanged, and every pattern read before and after the
call yields the same answer (explicit transactions are all-or-nothing). -/
theorem claim_C3 (db : DB) (f : List BatchOp → Except String (List BatchOp))
    (e : String) (h : f [] = Except.error e) :
    RocksDbStore.transaction db f = (Except.error e, db) ∧
    ∀ s p o g : Option EncodedTerm,
      encoded_quads_for_pattern (RocksDbStore.transaction db f).2 s p o g =
        encoded_quads_for_pattern db s p o g := by
  unfold RocksDbStore.transaction
  rw [h]
  exact ⟨rfl, fun s p o g => rfl⟩

/-- C3 witness: a closure that fails leaves a fresh store untouched. -/
theorem claim_C3_witness :
    RocksDbStore.transaction emptyDB (fun _ => Except.error "boom") =
      (Except.error "boom", emptyDB) :=
  (claim_C3 emptyDB (fun _ => Except.error "boom") "boom" rfl).1

/-- C4: a fully-bound pattern is answered by a point existence check of the
spog key: the iterator yields exactly that one quad when the key is
present and nothing otherwise, and the answer depends only on the spog
column family (and the handle lookup), not on any other column family. -/
theorem claim_C4 (ops : List StoreOp) (s p o g : EncodedTerm) :
    (encoded_quads_for_pattern (applyStoreOps emptyDB ops) (some s) (some p) (some o)
        (some g) =
      (if writeSpogQuad ⟨s, p, o, g⟩ ∈ (applyStoreOps emptyDB ops).spog
        then {Except.ok (⟨s, p, o, g⟩ : EncodedQuad)} else ∅)) ∧
    ∀ db1 db2 : DB, db1.cfs = db2.cfs → db1.spog = db2.spog →
      encoded_quads_for_pattern db1 (some s) (some p) (some o) (some g) =
        encoded_quads_for_pattern db2 (some s) (some p) (some o) (some g) := by
  exact ⟨eqfp_point (handle_applyStoreOps ops) s p o g,
    fun db1 db2 hcfs hspog => eqfp_point_spog_only hcfs hspog s p o g⟩

/-- C4 witness: on a fresh store the point lookup misses, and two stores
with equal handles and equal spog families answer alike. -/
theorem claim_C4_witness :
    (encoded_quads_for_pattern (applyStoreOps emptyDB [])
        (some ENCODED_DEFAULT_GRAPH) (some ENCODED_DEFAULT_GRAPH)
        (some ENCODED_DEFAULT_GRAPH) (some ENCODED_DEFAULT_GRAPH) =
      (if writeSpogQuad ⟨ENCODED_DEFAULT_GRAPH, ENCODED_DEFAULT_GRAPH,
            ENCODED_DEFAULT_GRAPH, ENCODED_DEFAULT_GRAPH⟩ ∈
          (applyStoreOps emptyDB []).spog
        then {Except.ok (⟨ENCODED_DEFAULT_GRAPH, ENCODED_DEFAULT_GRAPH,
          ENCODED_DEFAULT_GRAPH, ENCODED_DEFAULT_GRAPH⟩ : EncodedQuad)} else ∅)) ∧
    encoded_quads_for_pattern emptyDB (some ENCODED_DEFAULT_GRAPH)
        (some ENCODED_DEFAULT_GRAPH) (some ENCODED_DEFAULT_GRAPH)
        (some ENCODED_DEFAULT_GRAPH) =
      encoded_quads_for_pattern emptyDB (some ENCODED_DEFAULT_GRAPH)
        (some ENCODED_DEFAULT_GRAPH) (some ENCODED_DEFAULT_GRAPH)
        (some ENCODED_DEFAULT_GRAPH) :=
  ⟨(claim_C4 [] ENCODED_DEFAULT_GRAPH ENCODED_DEFAULT_GRAPH ENCODED_DEFAULT_GRAPH
      ENCODED_DEFAULT_GRAPH).1,
   (claim_C4 [] ENCODED_DEFAULT_GRAPH ENCODED_DEFAULT_GRAPH ENCODED_DEFAULT_GRAPH
      ENCODED_DEFAULT_GRAPH).2 emptyDB emptyDB rfl rfl⟩

/-- C5: the graph argument of `quads_for_pattern` is three-state: the
translation line maps an absent argument to an unconstrained encoded slot,
`Some(None)` to `ENCODED_DEFAULT_GRAPH` and `Some(Some(n))` to `n`; and on
any store contents, an absent argument returns the quads of every graph
(default included), `Some(None)` exactly the default-graph quads, and
`Some(Some(n))` exactly the quads of graph `n`. -/
theorem claim_C5 (ops : List StoreOp) (n : EncodedTerm) (q : EncodedQuad)
    (sp pp op : Option EncodedTerm) :
    (RocksDbStore.quads_for_pattern (applyStoreOps emptyDB ops) sp pp op none =
      encoded_quads_for_pattern (applyStoreOps emptyDB ops) sp pp op none) ∧
    (RocksDbStore.quads_for_pattern (applyStoreOps emptyDB ops) sp pp op (some none) =
      encoded_quads_for_pattern (applyStoreOps emptyDB ops) sp pp op
        (some ENCODED_DEFAULT_GRAPH)) ∧
    (RocksDbStore.quads_for_pattern (applyStoreOps emptyDB ops) sp pp op (some (some n)) =
      encoded_quads_for_pattern (applyStoreOps emptyDB ops) sp pp op (some n)) ∧
    ((Except.ok q ∈ RocksDbStore.quads_for_pattern (applyStoreOps emptyDB ops)
        none none none none) ↔ q ∈ quadSet ops) ∧
    ((Except.ok q ∈ RocksDbStore.quads_for_pattern (applyStoreOps emptyDB ops)
        none none none (some none)) ↔
      q ∈ quadSet ops ∧ q.graph = ENCODED_DEFAULT_GRAPH) ∧
    ((Except.ok q ∈ RocksDbStore.quads_for_pattern (applyStoreOps emptyDB ops)
        none none none (some (some n))) ↔
      q ∈ quadSet ops ∧ q.graph = n) := by
  refine ⟨rfl, rfl, rfl, ?_, ?_, ?_⟩
  · rw [show RocksDbStore.quads_for_pattern (applyStoreOps emptyDB ops)
        none none none none =
        spog_quads (applyStoreOps emptyDB ops) [] from by
      simp only [RocksDbStore.quads_for_pattern, Option.map_none', Option.map_none, encoded_quads_for_pattern,
        handle_applyStoreOps, quads]]
    rw [ok_mem_spog_quads]
    simp only [hasPfx_nil, and_true]
  · rw [show RocksDbStore.quads_for_pattern (applyStoreOps emptyDB ops)
        none none none (some none) =
        gspo_quads (applyStoreOps emptyDB ops) (encode_term ENCODED_DEFAULT_GRAPH) from by
      simp only [RocksDbStore.quads_for_pattern, Option.map_some', Option.map_some, Option.getD_none,
        encoded_quads_for_pattern, handle_applyStoreOps, quads_for_graph, wrap_error]]
    rw [ok_mem_gspo_quads]
    simp only [encode_term, writeTerm, writeGspoQuad, List.cons_append, List.nil_append,
      hasPfx_cons_cons, hasPfx_nil, Bool.and_eq_true, decide_eq_true_eq, and_true]
    constructor
    · rintro ⟨h1, h2⟩; exact ⟨h1, h2.symm⟩
    · rintro ⟨h1, h2⟩; exact ⟨h1, h2.symm⟩
  · rw [show RocksDbStore.quads_for_pattern (applyStoreOps emptyDB ops)
        none none none (some (some n)) =
        gspo_quads (applyStoreOps emptyDB ops) (encode_term n) from by
      simp only [RocksDbStore.quads_for_pattern, Option.map_some', Option.map_some, Option.getD_some,
        encoded_quads_for_pattern, handle_applyStoreOps, quads_for_graph, wrap_error]]
    rw [ok_mem_gspo_quads]
    simp only [encode_term, writeTerm, writeGspoQuad, List.cons_append, List.nil_append,
      hasPfx_cons_cons, hasPfx_nil, Bool.and_eq_true, decide_eq_true_eq, and_true]
    constructor
    · rintro ⟨h1, h2⟩; exact ⟨h1, h2.symm⟩
    · rintro ⟨h1, h2⟩; exact ⟨h1, h2.symm⟩

/-- C6: in auto (bulk-load) mode, whenever the write buffer exceeds
`MAX_TRANSACTION_SIZE` = 1024 operations it is flushed as one batch and
emptied, and otherwise left alone; after every step the buffer holds at
most `MAX_TRANSACTION_SIZE` operations; because the threshold check runs
only after a whole quad's six writes are buffered, the six permutation
keys of one quad always land in the same sub-batch, so the published store
stays coherent throughout, and the final commit produces the same store a
flush-free run would. -/
theorem claim_C6 (t : RocksDbAutoTransaction) (ops0 ops : List StoreOp) :
    (MAX_TRANSACTION_SIZE < t.batch.length →
      commit_if_big t = { db := t.db.write t.batch, batch := [] }) ∧
    (t.batch.length ≤ MAX_TRANSACTION_SIZE → commit_if_big t = t) ∧
    ((ops.foldl autoStep
        { db := applyStoreOps emptyDB ops0, batch := [] }).batch.length ≤
      MAX_TRANSACTION_SIZE) ∧
    Coherent ((ops.foldl autoStep
      { db := applyStoreOps emptyDB ops0, batch := [] }).db) ∧
    (RocksDbAutoTransaction.commit
        (ops.foldl autoStep { db := applyStoreOps emptyDB ops0, batch := [] }) =
      applyStoreOps emptyDB (ops0 ++ ops)) := by
  refine ⟨?_, ?_, ?_, ?_, ?_⟩
  · intro h
    unfold commit_if_big
    rw [if_pos h]
  · intro h
    unfold commit_if_big
    rw [if_neg (Nat.not_lt.mpr h)]
  · exact foldl_autoStep_batch_le ops _ (Nat.zero_le _)
  · exact reachEmpty_coherent
      (autoSteps_invariant ops _ ⟨ops0, rfl⟩ ⟨[], rfl⟩).1
  · rw [commit_foldl_autoStep,
      show RocksDbAutoTransaction.commit
          { db := applyStoreOps emptyDB ops0, batch := [] } =
        applyStoreOps emptyDB ops0 from rfl,
      ← applyStoreOps_eq_write, ← applyStoreOps_append]

/-- C6 witness: a 1025-operation buffer is flushed and emptied, a
1024-or-fewer-operation buffer is kept. -/
theorem claim_C6_witness :
    (commit_if_big { db := emptyDB, batch := List.replicate 1025 (BatchOp.putStr 0 "x") } =
      { db := emptyDB.write (List.replicate 1025 (BatchOp.putStr 0 "x")), batch := [] }) ∧
    commit_if_big { db := emptyDB, batch := [] } = { db := emptyDB, batch := [] } :=
  ⟨(claim_C6 { db := emptyDB, batch := List.replicate 1025 (BatchOp.putStr 0 "x") }
      [] []).1 (by rw [List.length_replicate]; norm_num [MAX_TRANSACTION_SIZE]),
   (claim_C6 { db := emptyDB, batch := [] } [] []).2.1 (Nat.zero_le _)⟩

/-- C7: a SERVICE call whose handler errors yields, when SILENT, exactly
one solution: the empty binding; when not SILENT the handler's error
propagates to the result; a succeeding handler's solutions pass through in
either mode. -/
theorem claim_C7 (e : String) (solutions : List Binding) :
    evalService true (Except.error e) = Except.ok [[]] ∧
    evalService false (Except.error e) = Except.error e ∧
    evalService true (Except.ok solutions) = Except.ok solutions ∧
    evalService false (Except.ok solutions) = Except.ok solutions :=
  ⟨rfl, rfl, rfl, rfl⟩

/-- C8: a string supplied as a BlankNode identifier through the external
DataFactory — to `blankNode(value)` or via a host object with termType
"BlankNode" — converts successfully iff it parses as a hexadecimal 128-bit
number; otherwise it is rejected with the documented error; and a
successful conversion yields an id below `2^128`. -/
theorem claim_C8 (s : String) (fresh n : Nat) :
    ((∃ m, JsDataFactory.blank_node (some s) fresh = Except.ok m) ↔ IsHex128 s) ∧
    ((∃ m, FromJsConverter.to_term_blank_node s = Except.ok m) ↔ IsHex128 s) ∧
    (¬IsHex128 s →
      JsDataFactory.blank_node (some s) fresh =
        Except.error "Oxigraph only supports BlankNode created with Oxigraph DataFactory") ∧
    (¬IsHex128 s →
      FromJsConverter.to_term_blank_node s =
        Except.error "Oxigraph only supports BlankNode created with Oxigraph DataFactory") ∧
    (JsDataFactory.blank_node (some s) fresh = Except.ok n → n < U128_MOD) := by
  have hiff := fromStrRadix16_isSome_iff s
  cases hfs : fromStrRadix16 s with
  | none =>
    have hnot : ¬IsHex128 s := by
      rw [← hiff]
      rintro ⟨m, hm⟩
      rw [hfs] at hm
      cases hm
    have hb : JsDataFactory.blank_node (some s) fresh =
        Except.error "Oxigraph only supports BlankNode created with Oxigraph DataFactory" := by
      simp only [JsDataFactory.blank_node, hfs]
    have ht : FromJsConverter.to_term_blank_node s =
        Except.error "Oxigraph only supports BlankNode created with Oxigraph DataFactory" := by
      simp only [FromJsConverter.to_term_blank_node, hfs]
    refine ⟨⟨?_, fun h => absurd h hnot⟩, ⟨?_, fun h => absurd h hnot⟩,
      fun _ => hb, fun _ => ht, ?_⟩
    · rintro ⟨m, hm⟩
      rw [hb] at hm
      cases hm
    · rintro ⟨m, hm⟩
      rw [ht] at hm
      cases hm
    · intro hm
      rw [hb] at hm
      cases hm
  | some m =>
    have hhex : IsHex128 s := hiff.mp ⟨m, hfs⟩
    have hb : JsDataFactory.blank_node (some s) fresh = Except.ok m := by
      simp only [JsDataFactory.blank_node, hfs]
    have ht : FromJsConverter.to_term_blank_node s = Except.ok m := by
      simp only [FromJsConverter.to_term_blank_node, hfs]
    refine ⟨⟨fun _ => hhex, fun _ => ⟨m, hb⟩⟩, ⟨fun _ => hhex, fun _ => ⟨m, ht⟩⟩,
      fun h => absurd hhex h, fun h => absurd hhex h, ?_⟩
    intro hn
    rw [hb, Except.ok.injEq] at hn
    subst hn
    exact fromStrRadix16_lt s m hfs

/-- C8 witness: `"ff"` parses (as 255, below `2^128`). -/
theorem claim_C8_witness : IsHex128 "ff" ∧ 255 < U128_MOD :=
  ⟨(claim_C8 "ff" 0 255).1.mp ⟨255, by decide⟩,
   (claim_C8 "ff" 0 255).2.2.2.2 (by decide)⟩

/-- C9: removing a quad the store does not contain returns successfully
and leaves the store's contents unchanged — the six deletes are blind —
and removal is idempotent on any store. -/
theorem claim_C9 (ops : List StoreOp) (q : EncodedQuad) (db' : DB) (q' : EncodedQuad)
    (h : DB.contains (applyStoreOps emptyDB ops) q = Except.ok false) :
    RocksDbStore.remove (applyStoreOps emptyDB ops) q = applyStoreOps emptyDB ops ∧
    RocksDbStore.remove (RocksDbStore.remove db' q') q' = RocksDbStore.remove db' q' := by
  constructor
  · have hsync := syncs_applyStoreOps ops
    have hmem : writeSpogQuad q ∉ (applyStoreOps emptyDB ops).spog := by
      simp only [DB.contains, Except.ok.injEq] at h
      exact of_decide_eq_false h
    have hq : q ∉ quadSet ops := by
      rw [← syncs_mem_spog hsync]
      exact hmem
    obtain ⟨h1, h2, h3, h4, h5, h6⟩ := hsync
    have m2 : writePosgQuad q ∉ (applyStoreOps emptyDB ops).posg := by
      rw [h2, writePosgQuad_injective.mem_finset_image]
      exact hq
    have m3 : writeOspgQuad q ∉ (applyStoreOps emptyDB ops).ospg := by
      rw [h3, writeOspgQuad_injective.mem_finset_image]
      exact hq
    have m4 : writeGspoQuad q ∉ (applyStoreOps emptyDB ops).gspo := by
      rw [h4, writeGspoQuad_injective.mem_finset_image]
      exact hq
    have m5 : writeGposQuad q ∉ (applyStoreOps emptyDB ops).gpos := by
      rw [h5, writeGposQuad_injective.mem_finset_image]
      exact hq
    have m6 : writeGospQuad q ∉ (applyStoreOps emptyDB ops).gosp := by
      rw [h6, writeGospQuad_injective.mem_finset_image]
      exact hq
    rw [store_remove_eq, Finset.erase_eq_of_not_mem hmem, Finset.erase_eq_of_not_mem m2,
      Finset.erase_eq_of_not_mem m3, Finset.erase_eq_of_not_mem m4,
      Finset.erase_eq_of_not_mem m5, Finset.erase_eq_of_not_mem m6]
  · simp [store_remove_eq, Finset.erase_idem]

/-- C9 witness: removing an absent quad from a fresh store is a no-op, and
removing twice equals removing once. -/
theorem claim_C9_witness :
    (RocksDbStore.remove (applyStoreOps emptyDB [])
        ⟨ENCODED_DEFAULT_GRAPH, ENCODED_DEFAULT_GRAPH, ENCODED_DEFAULT_GRAPH,
          ENCODED_DEFAULT_GRAPH⟩ = applyStoreOps emptyDB []) ∧
    RocksDbStore.remove
        (RocksDbStore.remove emptyDB
          ⟨ENCODED_DEFAULT_GRAPH, ENCODED_DEFAULT_GRAPH, ENCODED_DEFAULT_GRAPH,
            ENCODED_DEFAULT_GRAPH⟩)
        ⟨ENCODED_DEFAULT_GRAPH, ENCODED_DEFAULT_GRAPH, ENCODED_DEFAULT_GRAPH,
          ENCODED_DEFAULT_GRAPH⟩ =
      RocksDbStore.remove emptyDB
        ⟨ENCODED_DEFAULT_GRAPH, ENCODED_DEFAULT_GRAPH, ENCODED_DEFAULT_GRAPH,
          ENCODED_DEFAULT_GRAPH⟩ :=
  claim_C9 []
    ⟨ENCODED_DEFAULT_GRAPH, ENCODED_DEFAULT_GRAPH, ENCODED_DEFAULT_GRAPH,
      ENCODED_DEFAULT_GRAPH⟩
    emptyDB
    ⟨ENCODED_DEFAULT_GRAPH, ENCODED_DEFAULT_GRAPH, ENCODED_DEFAULT_GRAPH,
      ENCODED_DEFAULT_GRAPH⟩
    (by decide)

/-- C10: `encoded_quads_for_pattern` never fails eagerly: a backend error
while acquiring the column family handles becomes an iterator that yields
exactly one item, that error. -/
theorem claim_C10 (db : DB) (sp pp op gp : Option EncodedTerm) (e : String)
    (h : db.handle = Except.error e) :
    encoded_quads_for_pattern db sp pp op gp = {Except.error e} :=
  eqfp_handle_error h sp pp op gp

/-- C10 witness: with no column families at all, every pattern read yields
exactly the missing-id2str error. -/
theorem claim_C10_witness :
    encoded_quads_for_pattern
      { cfs := [], id2str := fun _ => none, spog := ∅, posg := ∅, ospg := ∅,
        gspo := ∅, gpos := ∅, gosp := ∅ } none none none none =
      {Except.error ("column family " ++ ID2STR_CF ++ " not found")} :=
  claim_C10
    { cfs := [], id2str := fun _ => none, spog := ∅, posg := ∅, ospg := ∅,
      gspo := ∅, gpos := ∅, gosp := ∅ }
    none none none none ("column family " ++ ID2STR_CF ++ " not found") rfl

end Oxigraph
